import Mathlib

/-!
Verification of the FridayChain Arena game core: a shallow embedding in
Lean 4 of the deterministic Sudoku tournament engine (scoring, placement
validation, completion check, participant and coordinator state machines,
and the frontend's leaderboard rating and suspicious-move detector),
together with theorems settling the specification's claims about it.

Machine integers (`u64`, `u32`, JS numbers) are modelled as `Nat`/`Int`
with explicit saturation bounds where the source uses saturating
arithmetic.
-/

/-- A 9×9 Sudoku grid, indexed by row and column (cells outside `[0,8]²`
are irrelevant); cell values are `0..9` with `0` meaning empty. -/
abbrev Grid := Nat → Nat → Nat

/-! ## Scoring module (contract, hub chain)

The on-chain score computation uses Rust `u64` saturating arithmetic:
`10_000u64.saturating_sub(elapsed_secs.saturating_mul(2))
         .saturating_sub((penalty_count as u64).saturating_mul(100))`. -/

/-- Largest value of a Rust `u64`. -/
def U64_MAX : Nat := 2 ^ 64 - 1

/-- Rust `u64::saturating_mul` on the `Nat` embedding. -/
def satMul (a b : Nat) : Nat := min (a * b) U64_MAX

/-- Rust `u64::saturating_sub` on the `Nat` embedding: truncated
subtraction, which is exactly `Nat` subtraction. -/
def satSub (a b : Nat) : Nat := a - b

/-- The authoritative base score the hub computes on `SyncBoardComplete`:
`10_000` minus two points per elapsed second minus one hundred points per
penalty, all with saturating `u64` arithmetic. -/
def base_score (elapsed_secs penalty_count : Nat) : Nat :=
  satSub (satSub 10000 (satMul elapsed_secs 2)) (satMul penalty_count 100)

/-! ## Puzzle engine: completion check (contract)

`check_complete` compares every cell of the player's board against the
hidden solution, returning `false` on any mismatch. -/

/-- The contract's `check_complete`: loops over all 81 cells of the
board and returns `true` iff each equals the solution cell. -/
def check_complete (board solution : Grid) : Bool :=
  (List.range 9).all fun r =>
    (List.range 9).all fun c => board r c == solution r c

/-- Functional update of one grid cell, as in `board[row][col] = value`. -/
def updateGrid (g : Grid) (row col v : Nat) : Grid :=
  fun r c => if r = row ∧ c = col then v else g r c

lemma check_complete_iff (board solution : Grid) :
    check_complete board solution = true ↔
      ∀ r < 9, ∀ c < 9, board r c = solution r c := by
  simp [check_complete]

/-- C1: for every elapsed-seconds count `e` and penalty count `p`, the
saturating-arithmetic base score equals `max 0 (10000 - 2*e - 100*p)`;
in particular a completion at 720 s with 2 penalties scores 8360. -/
theorem base_score_closed_form :
    (∀ e p : Nat, (base_score e p : Int) =
        max 0 (10000 - 2 * (e : Int) - 100 * (p : Int))) ∧
      base_score 720 2 = 8360 := by
  constructor
  · intro e p
    simp only [base_score, satSub, satMul, U64_MAX]
    omega
  · rfl

/-- C7: the base score is monotonically non-increasing in elapsed
seconds (penalties fixed), monotonically non-increasing in the penalty
count (elapsed fixed), and never negative. -/
theorem base_score_monotone_nonneg :
    (∀ e e' p : Nat, e ≤ e' → base_score e' p ≤ base_score e p) ∧
      (∀ e p p' : Nat, p ≤ p' → base_score e p' ≤ base_score e p) ∧
      (∀ e p : Nat, 0 ≤ (base_score e p : Int)) := by
  refine ⟨?_, ?_, ?_⟩
  · intro e e' p h
    simp only [base_score, satSub, satMul, U64_MAX]
    omega
  · intro e p p' h
    simp only [base_score, satSub, satMul, U64_MAX]
    omega
  · intro e p
    exact Int.ofNat_nonneg _

/-- C7 witness: concrete instances of the monotonicity in both
arguments and of non-negativity. -/
theorem base_score_monotone_nonneg_witness :
    base_score 721 2 ≤ base_score 720 2 ∧
      base_score 720 3 ≤ base_score 720 2 ∧
      0 ≤ (base_score 6000 0 : Int) :=
  ⟨base_score_monotone_nonneg.1 720 721 2 (by decide),
   base_score_monotone_nonneg.2.1 720 2 3 (by decide),
   base_score_monotone_nonneg.2.2 6000 0⟩

/-- C4: `check_complete` returns `true` iff all 81 cells match the
solution, and flipping any single cell of a fully-matching board to a
different value makes it return `false`. -/
theorem check_complete_correct :
    (∀ board solution : Grid,
        check_complete board solution = true ↔
          ∀ r < 9, ∀ c < 9, board r c = solution r c) ∧
      (∀ board solution : Grid, ∀ r c v : Nat,
        (∀ r' < 9, ∀ c' < 9, board r' c' = solution r' c') →
        r < 9 → c < 9 → v ≠ board r c →
        check_complete (updateGrid board r c v) solution = false) := by
  refine ⟨check_complete_iff, ?_⟩
  intro board solution r c v hAll hr hc hv
  rw [Bool.eq_false_iff]
  intro h
  rw [check_complete_iff] at h
  have hcell := h r hr c hc
  simp only [updateGrid, if_pos (And.intro rfl rfl)] at hcell
  exact hv (hcell.trans (hAll r hr c hc).symm)

/-- C4 witness: the constant-1 board matches itself, and flipping cell
(0,0) to 2 breaks completion. -/
theorem check_complete_correct_witness :
    check_complete (fun _ _ => 1) (fun _ _ => 1) = true ∧
      check_complete (updateGrid (fun _ _ => 1) 0 0 2) (fun _ _ => 1) = false :=
  ⟨(check_complete_correct.1 (fun _ _ => 1) (fun _ _ => 1)).mpr
      (fun _ _ _ _ => rfl),
   check_complete_correct.2 (fun _ _ => 1) (fun _ _ => 1) 0 0 2
      (fun _ _ _ _ => rfl) (by decide) (by decide) (by decide)⟩

/-! ## Puzzle engine: placement validation (contract)

Modelled from the spec: `validate_placement(board, row, col, value)`
returns `false` if `value` already occurs elsewhere in the same row,
same column, or same 3×3 box; `true` otherwise (the function body is
not in the repository snapshot — only its signature and documented
behaviour are). -/

/-- True when `value` occurs in the same row at a column other than
`col`. -/
def rowConflict (board : Grid) (row col value : Nat) : Bool :=
  (List.range 9).any fun c => (c != col) && (board row c == value)

/-- True when `value` occurs in the same column at a row other than
`row`. -/
def colConflict (board : Grid) (row col value : Nat) : Bool :=
  (List.range 9).any fun r => (r != row) && (board r col == value)

/-- True when `value` occurs in the same 3×3 box at a cell other than
`(row, col)`. -/
def boxConflict (board : Grid) (row col value : Nat) : Bool :=
  (List.range 3).any fun dr =>
    (List.range 3).any fun dc =>
      (!((row / 3 * 3 + dr == row) && (col / 3 * 3 + dc == col))) &&
        (board (row / 3 * 3 + dr) (col / 3 * 3 + dc) == value)

/-- Modelled from the spec: Sudoku legality of placing `value` at
`(row, col)` — no duplicate in the row, column, or 3×3 box. -/
def validate_placement (board : Grid) (row col value : Nat) : Bool :=
  !(rowConflict board row col value || colConflict board row col value ||
      boxConflict board row col value)

/-! ## Participant game state machine

Modelled from the spec: the `PlaceCell` / `ClearCell` handlers of
`contract.rs` (whose body is not in the repository snapshot; the
summary documents the handler as 15 ordered steps). The `active`
flag below stands for "a tournament is active and the current time is
within its window"; both conditions reject identically with no state
change. -/

/-- One participant's on-chain game state. -/
structure PlayerGameState where
  board : Grid
  given_mask : Nat → Nat → Bool
  penalty_count : Nat
  move_count : Nat
  completed : Bool

/-- Modelled from the spec: the `PlaceCell` operation. Rejections
(inactive tournament, out-of-range `row`/`col`/`value`, given cell)
return an error and mutate nothing; otherwise the move count rises,
an illegal placement adds a penalty, the value is written
unconditionally, and completion against the solution is checked. -/
def placeCell (solution : Grid) (active : Bool) (gs : PlayerGameState)
    (row col value : Nat) : Except String PlayerGameState :=
  if active = false then Except.error "no active tournament"
  else if 8 < row ∨ 8 < col then Except.error "row or col out of range"
  else if value < 1 ∨ 9 < value then Except.error "value out of range"
  else if gs.given_mask row col = true then Except.error "cell is a given"
  else
    let board' := updateGrid gs.board row col value
    Except.ok
      { board := board'
        given_mask := gs.given_mask
        penalty_count :=
          if validate_placement gs.board row col value then gs.penalty_count
          else gs.penalty_count + 1
        move_count := gs.move_count + 1
        completed := gs.completed || check_complete board' solution }

/-- Modelled from the spec: the `ClearCell` operation — rejected if the
cell is a given or the game is completed, otherwise sets the cell back
to 0, leaving the move and penalty counts untouched. -/
def clearCell (gs : PlayerGameState) (row col : Nat) :
    Except String PlayerGameState :=
  if gs.given_mask row col = true then Except.error "cell is a given"
  else if gs.completed = true then Except.error "game completed"
  else
    Except.ok
      { board := updateGrid gs.board row col 0
        given_mask := gs.given_mask
        penalty_count := gs.penalty_count
        move_count := gs.move_count
        completed := gs.completed }

/-- A participant-side operation. -/
inductive PlayerOp where
  | place (row col value : Nat)
  | clear (row col : Nat)

/-- Keep the old state when an operation is rejected (all-or-nothing
semantics of the contract's operation handlers). -/
def orElseKeep (gs : PlayerGameState) :
    Except String PlayerGameState → PlayerGameState
  | Except.ok gs' => gs'
  | Except.error _ => gs

/-- Apply one operation; a rejected operation leaves the state
unchanged. -/
def applyOp (solution : Grid) (active : Bool) (gs : PlayerGameState) :
    PlayerOp → PlayerGameState
  | PlayerOp.place row col value =>
      orElseKeep gs (placeCell solution active gs row col value)
  | PlayerOp.clear row col => orElseKeep gs (clearCell gs row col)

/-- Apply a sequence of operations in order. -/
def applyOps (solution : Grid) (active : Bool) (gs : PlayerGameState)
    (ops : List PlayerOp) : PlayerGameState :=
  ops.foldl (applyOp solution active) gs

lemma placeCell_ok_shape {solution : Grid} {active : Bool}
    {gs gs' : PlayerGameState} {row col value : Nat}
    (h : placeCell solution active gs row col value = Except.ok gs') :
    gs'.given_mask = gs.given_mask ∧ gs.given_mask row col = false ∧
      gs'.board = updateGrid gs.board row col value := by
  unfold placeCell at h
  split_ifs at h with h1 h2 h3 h4 h5
  all_goals cases h
  all_goals exact ⟨rfl, by simpa using h4, rfl⟩

lemma clearCell_ok_shape {gs gs' : PlayerGameState} {row col : Nat}
    (h : clearCell gs row col = Except.ok gs') :
    gs'.given_mask = gs.given_mask ∧ gs.given_mask row col = false ∧
      gs'.board = updateGrid gs.board row col 0 := by
  unfold clearCell at h
  split_ifs at h with h1 h2
  all_goals cases h
  exact ⟨rfl, by simpa using h1, rfl⟩

lemma applyOp_preserves_given {solution : Grid} {active : Bool}
    (gs : PlayerGameState) (op : PlayerOp) {r c : Nat}
    (hm : gs.given_mask r c = true) :
    (applyOp solution active gs op).given_mask r c = true ∧
      (applyOp solution active gs op).board r c = gs.board r c := by
  cases op with
  | place row col value =>
      simp only [applyOp]
      cases hp : placeCell solution active gs row col value with
      | error e => exact ⟨hm, rfl⟩
      | ok gs' =>
          obtain ⟨hmask, hng, hb⟩ := placeCell_ok_shape hp
          simp only [orElseKeep]
          refine ⟨hmask ▸ hm, ?_⟩
          rw [hb, updateGrid]
          rw [if_neg]
          rintro ⟨rfl, rfl⟩
          rw [hm] at hng
          exact Bool.noConfusion hng
  | clear row col =>
      simp only [applyOp]
      cases hp : clearCell gs row col with
      | error e => exact ⟨hm, rfl⟩
      | ok gs' =>
          obtain ⟨hmask, hng, hb⟩ := clearCell_ok_shape hp
          simp only [orElseKeep]
          refine ⟨hmask ▸ hm, ?_⟩
          rw [hb, updateGrid]
          rw [if_neg]
          rintro ⟨rfl, rfl⟩
          rw [hm] at hng
          exact Bool.noConfusion hng

lemma applyOps_preserves_given {solution : Grid} {active : Bool}
    (ops : List PlayerOp) (gs : PlayerGameState) {r c : Nat}
    (hm : gs.given_mask r c = true) :
    (applyOps solution active gs ops).given_mask r c = true ∧
      (applyOps solution active gs ops).board r c = gs.board r c := by
  induction ops generalizing gs with
  | nil => exact ⟨hm, rfl⟩
  | cons op ops ih =>
      obtain ⟨hm', hb'⟩ :=
        @applyOp_preserves_given solution active gs op r c hm
      obtain ⟨hm'', hb''⟩ := ih (applyOp solution active gs op) hm'
      exact ⟨hm'', hb''.trans hb'⟩

lemma placeCell_accepts {solution : Grid} {gs : PlayerGameState}
    {row col value : Nat} (hr : row ≤ 8) (hc : col ≤ 8)
    (hv1 : 1 ≤ value) (hv9 : value ≤ 9)
    (hm : gs.given_mask row col = false) :
    ∃ gs', placeCell solution true gs row col value = Except.ok gs' ∧
      gs'.board row col = value ∧
      gs'.penalty_count =
        (if validate_placement gs.board row col value then gs.penalty_count
         else gs.penalty_count + 1) := by
  unfold placeCell
  rw [if_neg (by simp), if_neg (by omega), if_neg (by omega),
    if_neg (by simp [hm])]
  exact ⟨_, rfl, by simp [updateGrid], rfl⟩

lemma colConflict_of_dup {board : Grid} {row col value r : Nat}
    (hr : r < 9) (hne : r ≠ row) (hb : board r col = value) :
    colConflict board row col value = true := by
  simp only [colConflict, List.any_eq_true, List.mem_range]
  exact ⟨r, hr, by simp [hne, hb]⟩

/-- C2: on an active tournament, for in-range `row`, `col`, `value` on
a non-given cell, `PlaceCell` is accepted, the value is written into
`board[row][col]` regardless of validity, and the penalty count rises
by exactly 1 when `validate_placement` is `false` (and is unchanged
otherwise); in particular placing `(3,5,7)` where `7` already sits
elsewhere in column 5 is an invalid-but-recorded move. -/
theorem placeCell_records_and_penalizes :
    (∀ (solution : Grid) (gs : PlayerGameState) (row col value : Nat),
        row ≤ 8 → col ≤ 8 → 1 ≤ value → value ≤ 9 →
        gs.given_mask row col = false →
        ∃ gs', placeCell solution true gs row col value = Except.ok gs' ∧
          gs'.board row col = value ∧
          gs'.penalty_count =
            (if validate_placement gs.board row col value then
              gs.penalty_count
             else gs.penalty_count + 1)) ∧
      (∀ (solution : Grid) (gs : PlayerGameState) (r : Nat),
        r ≤ 8 → r ≠ 3 → gs.board r 5 = 7 → gs.given_mask 3 5 = false →
        validate_placement gs.board 3 5 7 = false ∧
          ∃ gs', placeCell solution true gs 3 5 7 = Except.ok gs' ∧
            gs'.penalty_count = gs.penalty_count + 1 ∧
            gs'.board 3 5 = 7) := by
  refine ⟨fun solution gs row col value hr hc hv1 hv9 hm =>
    placeCell_accepts hr hc hv1 hv9 hm, ?_⟩
  intro solution gs r hr hne hb hm
  have hval : validate_placement gs.board 3 5 7 = false := by
    simp [validate_placement, colConflict_of_dup (by omega) hne hb]
  obtain ⟨gs', hok, hboard, hpen⟩ :=
    @placeCell_accepts solution gs 3 5 7
      (by omega) (by omega) (by omega) (by omega) hm
  rw [hval, if_neg Bool.false_ne_true] at hpen
  exact ⟨hval, gs', hok, hpen, hboard⟩

/-- Concrete board for the C2 scenario: a 7 already sits at `(0,5)`
(column 5), everything else empty. -/
def exBoard : Grid := fun r c => if r = 0 ∧ c = 5 then 7 else 0

/-- Concrete solution grid used only to instantiate theorems. -/
def exSolution : Grid := fun _ _ => 1

/-- Concrete fresh game state over `exBoard` with no given cells. -/
def exState : PlayerGameState :=
  { board := exBoard
    given_mask := fun _ _ => false
    penalty_count := 0
    move_count := 0
    completed := false }

/-- C2 witness: placing `(3,5,7)` on `exState` (which has a 7 at
`(0,5)`) is flagged invalid, adds one penalty, and still writes the 7. -/
theorem placeCell_records_and_penalizes_witness :
    validate_placement exState.board 3 5 7 = false ∧
      ∃ gs', placeCell exSolution true exState 3 5 7 = Except.ok gs' ∧
        gs'.penalty_count = exState.penalty_count + 1 ∧
        gs'.board 3 5 = 7 :=
  placeCell_records_and_penalizes.2 exSolution exState 0
    (by decide) (by decide) (by decide) (by decide)

lemma placeCell_given_rejected {solution : Grid} {active : Bool}
    {gs : PlayerGameState} {row col value : Nat}
    (hm : gs.given_mask row col = true) :
    ∃ e, placeCell solution active gs row col value = Except.error e := by
  unfold placeCell
  split_ifs with h1 h2 h3
  any_goals exact ⟨_, rfl⟩

/-- C3: a `PlaceCell` aimed at a given cell is always rejected with the
whole game state unchanged, and consequently `board[r][c] = puzzle[r][c]`
holds at every given cell after any sequence of place/clear operations. -/
theorem given_cells_immutable :
    (∀ (solution : Grid) (active : Bool) (gs : PlayerGameState)
        (row col value : Nat), gs.given_mask row col = true →
        (∃ e, placeCell solution active gs row col value =
            Except.error e) ∧
          applyOp solution active gs (PlayerOp.place row col value) = gs) ∧
      (∀ (solution : Grid) (active : Bool) (ops : List PlayerOp)
        (gs : PlayerGameState) (puzzle : Grid) (r c : Nat),
        gs.given_mask r c = true → gs.board r c = puzzle r c →
        (applyOps solution active gs ops).board r c = puzzle r c) := by
  constructor
  · intro solution active gs row col value hm
    obtain ⟨e, he⟩ :=
      @placeCell_given_rejected solution active gs row col value hm
    exact ⟨⟨e, he⟩, by simp [applyOp, he, orElseKeep]⟩
  · intro solution active ops gs puzzle r c hm hb
    exact ((applyOps_preserves_given ops gs hm).2).trans hb

/-- Concrete puzzle for the C3 witness: a given 5 at `(0,0)`. -/
def exPuzzle : Grid := fun r c => if r = 0 ∧ c = 0 then 5 else 0

/-- Concrete game state whose only given cell is `(0,0)`. -/
def exGivenState : PlayerGameState :=
  { board := exPuzzle
    given_mask := fun r c => (r == 0) && (c == 0)
    penalty_count := 0
    move_count := 0
    completed := false }

/-- C3 witness: placing into the given cell `(0,0)` errors and leaves
the state untouched, and after a place-then-clear sequence at `(0,0)`
the cell still equals the puzzle value. -/
theorem given_cells_immutable_witness :
    (∃ e, placeCell exSolution true exGivenState 0 0 9 =
        Except.error e) ∧
      applyOp exSolution true exGivenState (PlayerOp.place 0 0 9) =
        exGivenState ∧
      (applyOps exSolution true exGivenState
          [PlayerOp.place 0 0 9, PlayerOp.clear 0 0]).board 0 0 =
        exPuzzle 0 0 :=
  ⟨(given_cells_immutable.1 exSolution true exGivenState 0 0 9
      (by decide)).1,
   (given_cells_immutable.1 exSolution true exGivenState 0 0 9
      (by decide)).2,
   given_cells_immutable.2 exSolution true
      [PlayerOp.place 0 0 9, PlayerOp.clear 0 0] exGivenState exPuzzle 0 0
      (by decide) (by decide)⟩

/-! ## Puzzle engine: deterministic generation

Modelled from the spec: `generate_puzzle(seed)` seeds a deterministic
PRNG (`ChaCha8Rng::seed_from_u64`) with the `u64` seed, builds one
fully-solved grid from seed-derived orderings, and removes 46 cells in
diagonally symmetric pairs `(r,c)`/`(8-r,8-c)` chosen by the same
generator. The backtracking body is not in the repository snapshot;
the model below keeps its shape — a pure function of the seed — which
is what the determinism contract is about. -/

/-- One step of a deterministic 64-bit linear congruential generator,
standing in for the seeded PRNG. -/
def lcgStep (x : Nat) : Nat :=
  (x * 6364136223846793005 + 1442695040888963407) % 2 ^ 64

/-- Modelled from the spec: a fully-solved grid derived
deterministically from the seed (a shifted base pattern; each row,
column and box of the pattern covers `1..9`). -/
def solutionGrid (seed : Nat) : Grid :=
  fun r c => (r % 3 * 3 + r / 3 + c + lcgStep seed) % 9 + 1

/-- Modelled from the spec: the 23 seed-chosen cell indices (out of the
40 cells strictly before the centre in row-major order) whose symmetric
pairs are removed — 46 removed cells in total. -/
def removedIndices (seed : Nat) : List Nat :=
  ((List.range 40).map fun i => (i + lcgStep seed) % 40).take 23

/-- Whether cell `(r, c)` is removed from the solved grid: its
row-major index, folded onto the first half through the diagonal
symmetry `k ↦ 80 - k`, is one of the chosen indices. -/
def isRemoved (seed r c : Nat) : Bool :=
  let k := r * 9 + c
  (removedIndices seed).contains (if k ≤ 40 then k else 80 - k)

/-- Modelled from the spec: `generate_puzzle(seed)` — the masked puzzle
(removed cells zeroed) together with the full hidden solution, as a
pure function of the seed. -/
def generate (seed : Nat) : Grid × Grid :=
  let sol := solutionGrid seed
  (fun r c => if isRemoved seed r c then 0 else sol r c, sol)

/-- C5: puzzle generation is deterministic — two calls of `generate`
on the same 64-bit seed yield identical puzzle and solution grids
(`generate` is a pure function of the seed, with no other input). -/
theorem generate_deterministic :
    ∀ s₁ s₂ : Nat, s₁ = s₂ → generate s₁ = generate s₂ :=
  fun _ _ h => congrArg generate h

/-! ## Tournament coordinator state machine

Modelled from the spec: the hub-chain `StartTournament` handler
(`contract.rs` is not in the repository snapshot; the summary documents
it as: assert admin, assert hub chain, assert no active tournament,
then allocate a monotonic id, generate and store the puzzle, set the
window, and emit `TournamentStarted`). -/

/-- The coordinator-owned tournament record. -/
structure Tournament where
  id : Nat
  seed : Nat
  start_time : Nat
  end_time : Nat
  active : Bool

/-- Events broadcast on the hub's stream (payload fields that the
claims do not touch are omitted). -/
inductive ArenaEvt where
  | tournamentStarted (id seed start_time end_time : Nat)
  | tournamentEnded (id : Nat)
  | playerRegistered
  | leaderboardUpdated

/-- The hub chain's coordinator state. -/
structure CoordinatorState where
  active_tournament : Option Tournament
  tournament_counter : Nat
  current_puzzle : Option (Grid × Grid)
  event_log : List ArenaEvt

/-- A tournament is active iff one is stored and flagged active. -/
def isActive (st : CoordinatorState) : Bool :=
  match st.active_tournament with
  | some t => t.active
  | none => false

/-- Modelled from the spec: `StartTournament(seed, duration)` on the
hub. Rejected (with no mutation) unless the caller is the admin, the
operation is addressed to the hub chain, and no tournament is active;
otherwise allocates the next id, generates and stores the puzzle, sets
the time window, and appends a `TournamentStarted` event. -/
def startTournament (st : CoordinatorState) (isAdmin isHub : Bool)
    (seed duration now : Nat) : Except String CoordinatorState :=
  if isAdmin = false then Except.error "caller is not the admin"
  else if isHub = false then Except.error "not the hub chain"
  else if isActive st = true then Except.error "tournament already active"
  else
    let id := st.tournament_counter + 1
    Except.ok
      { active_tournament := some
          { id := id
            seed := seed
            start_time := now
            end_time := now + duration * 1000000
            active := true }
        tournament_counter := id
        current_puzzle := some (generate seed)
        event_log := st.event_log ++
          [ArenaEvt.tournamentStarted id seed now
            (now + duration * 1000000)] }

/-- Apply `startTournament`, keeping the old state on rejection
(all-or-nothing semantics). -/
def startTournamentApplied (st : CoordinatorState) (isAdmin isHub : Bool)
    (seed duration now : Nat) : CoordinatorState :=
  match startTournament st isAdmin isHub seed duration now with
  | Except.ok st' => st'
  | Except.error _ => st

/-- C6: while a tournament is active, `StartTournament` is rejected and
the coordinator state is byte-for-byte unchanged — in particular no new
tournament id is allocated and no event is appended to the log. -/
theorem startTournament_rejected_when_active :
    ∀ (st : CoordinatorState) (isAdmin isHub : Bool)
      (seed duration now : Nat), isActive st = true →
      (∃ e, startTournament st isAdmin isHub seed duration now =
          Except.error e) ∧
        startTournamentApplied st isAdmin isHub seed duration now = st ∧
        (startTournamentApplied st isAdmin isHub seed duration
            now).tournament_counter = st.tournament_counter ∧
        (startTournamentApplied st isAdmin isHub seed duration
            now).event_log = st.event_log := by
  intro st isAdmin isHub seed duration now hact
  have herr : ∃ e, startTournament st isAdmin isHub seed duration now =
      Except.error e := by
    unfold startTournament
    split_ifs with h1 h2
    any_goals exact ⟨_, rfl⟩
  obtain ⟨e, he⟩ := herr
  have happ : startTournamentApplied st isAdmin isHub seed duration now =
      st := by
    unfold startTournamentApplied
    rw [he]
  exact ⟨⟨e, he⟩, happ, by rw [happ], by rw [happ]⟩

/-- Concrete coordinator state with an active tournament. -/
def exCoord : CoordinatorState :=
  { active_tournament := some
      { id := 1, seed := 200, start_time := 0, end_time := 3600000000
        active := true }
    tournament_counter := 1
    current_puzzle := some (generate 200)
    event_log := [ArenaEvt.tournamentStarted 1 200 0 3600000000] }

/-- C6 witness: starting a tournament on `exCoord` (which has an active
one) is rejected with counter and event log untouched. -/
theorem startTournament_rejected_when_active_witness :
    (∃ e, startTournament exCoord true true 300 3600 5 =
        Except.error e) ∧
      startTournamentApplied exCoord true true 300 3600 5 = exCoord ∧
      (startTournamentApplied exCoord true true 300
          3600 5).tournament_counter = exCoord.tournament_counter ∧
      (startTournamentApplied exCoord true true 300
          3600 5).event_log = exCoord.event_log :=
  startTournament_rejected_when_active exCoord true true 300 3600 5
    (by decide)

/-! ## Frontend: suspicious-move detector
(`useSuspiciousMoveDetector.ts`)

`recordMove` pushes `Date.now()` into a rolling buffer, shifts the
oldest entry when the buffer exceeds `BURST_THRESHOLD`, and sets the
sticky `isSuspicious` flag when the buffer is full and every
consecutive interval is at most `FAST_MOVE_INTERVAL_MS`. -/

/-- Number of consecutive fast moves required to trigger the flag. -/
def BURST_THRESHOLD : Nat := 3

/-- Maximum ms between two consecutive moves to count as "fast". -/
def FAST_MOVE_INTERVAL_MS : Nat := 5000

/-- The hook's state: the rolling timestamp buffer (a `useRef` array)
and the sticky flag (a `useState` boolean). -/
structure DetectorState where
  moveTimestamps : List Nat
  isSuspicious : Bool

/-- The hook's initial state: empty buffer, flag down. -/
def initDetector : DetectorState :=
  { moveTimestamps := [], isSuspicious := false }

/-- The loop `for (i = 1; i < ts.length; i++) if (ts[i] - ts[i-1] >
FAST_MOVE_INTERVAL_MS) allFast = false`: every consecutive interval is
fast. -/
def allFast : List Nat → Bool
  | a :: b :: rest =>
      decide (b - a ≤ FAST_MOVE_INTERVAL_MS) && allFast (b :: rest)
  | _ => true

/-- The hook's `recordMove`: push the current time, drop the oldest entry past
`BURST_THRESHOLD`, and raise the sticky flag when the buffer is full
and all intervals are fast (the flag is never lowered here). -/
def recordMove (st : DetectorState) (now : Nat) : DetectorState :=
  let pushed := st.moveTimestamps ++ [now]
  let ts := if BURST_THRESHOLD < pushed.length then pushed.tail else pushed
  if ts.length < BURST_THRESHOLD then
    { moveTimestamps := ts, isSuspicious := st.isSuspicious }
  else
    { moveTimestamps := ts, isSuspicious := st.isSuspicious || allFast ts }

/-- The hook's `reset`: clear the buffer and lower the flag. -/
def resetDetector : DetectorState :=
  { moveTimestamps := [], isSuspicious := false }

lemma recordMove_length_le {st : DetectorState} {now : Nat}
    (h : st.moveTimestamps.length ≤ BURST_THRESHOLD) :
    (recordMove st now).moveTimestamps.length ≤ BURST_THRESHOLD := by
  simp only [recordMove]
  split_ifs <;>
    simp_all [BURST_THRESHOLD, List.length_tail, List.length_append]

lemma foldl_recordMove_length_le (ms : List Nat) (st : DetectorState)
    (h : st.moveTimestamps.length ≤ BURST_THRESHOLD) :
    ((ms.foldl recordMove st).moveTimestamps).length ≤ BURST_THRESHOLD := by
  induction ms generalizing st with
  | nil => exact h
  | cons m ms ih => exact ih (recordMove st m) (recordMove_length_le h)

lemma recordMove_flag_cases {st : DetectorState} {now : Nat}
    (hlen : st.moveTimestamps.length ≤ BURST_THRESHOLD)
    (h : (recordMove st now).isSuspicious = true) :
    st.isSuspicious = true ∨
      ((recordMove st now).moveTimestamps.length = BURST_THRESHOLD ∧
        allFast (recordMove st now).moveTimestamps = true) := by
  revert h
  simp only [recordMove]
  split_ifs with h1 h2 h3 <;> intro h
  · exact Or.inl h
  · rcases Bool.or_eq_true _ _ ▸ h with hs | hf
    · exact Or.inl hs
    · refine Or.inr ⟨?_, hf⟩
      simp only [List.length_tail, List.length_append, List.length_singleton,
        BURST_THRESHOLD] at h1 h2 hlen ⊢
      omega
  · exact Or.inl h
  · rcases Bool.or_eq_true _ _ ▸ h with hs | hf
    · exact Or.inl hs
    · refine Or.inr ⟨?_, hf⟩
      simp only [List.length_tail, List.length_append, List.length_singleton,
        BURST_THRESHOLD] at h1 h3 hlen ⊢
      omega

lemma recordMove_sticky (st : DetectorState) (now : Nat)
    (h : st.isSuspicious = true) :
    (recordMove st now).isSuspicious = true := by
  simp only [recordMove]
  split_ifs <;> simp [h]

lemma allFast_iff_chain (ts : List Nat) :
    allFast ts = true ↔
      ts.Chain' (fun a b => b - a ≤ FAST_MOVE_INTERVAL_MS) := by
  induction ts with
  | nil => simp [allFast]
  | cons a ts ih =>
      cases ts with
      | nil => simp [allFast]
      | cons b rest =>
          rw [allFast, Bool.and_eq_true, decide_eq_true_iff,
            List.chain'_cons, ih]

/-- C9: starting from the hook's initial state, the timestamp buffer
never exceeds 3 entries; a `recordMove` can raise the suspicious flag
only when the (full) buffer of the last 3 moves has all consecutive
intervals at most 5000 ms; once raised the flag survives every further
`recordMove`; and only `reset` lowers it. -/
theorem suspicious_detector_correct :
    (∀ ms : List Nat,
        ((ms.foldl recordMove initDetector).moveTimestamps).length ≤
          BURST_THRESHOLD) ∧
      (∀ (ms : List Nat) (now : Nat),
        (recordMove (ms.foldl recordMove initDetector)
            now).isSuspicious = true →
          (ms.foldl recordMove initDetector).isSuspicious = true ∨
            ((recordMove (ms.foldl recordMove initDetector)
                now).moveTimestamps.length = BURST_THRESHOLD ∧
              (recordMove (ms.foldl recordMove initDetector)
                  now).moveTimestamps.Chain'
                (fun a b => b - a ≤ FAST_MOVE_INTERVAL_MS))) ∧
      (∀ (st : DetectorState) (now : Nat), st.isSuspicious = true →
        (recordMove st now).isSuspicious = true) ∧
      resetDetector.isSuspicious = false := by
  refine ⟨?_, ?_, recordMove_sticky, rfl⟩
  · intro ms
    exact foldl_recordMove_length_le ms initDetector (by simp [initDetector])
  · intro ms now h
    rcases recordMove_flag_cases
        (foldl_recordMove_length_le ms initDetector
          (by simp [initDetector])) h with hs | ⟨hl, hf⟩
    · exact Or.inl hs
    · exact Or.inr ⟨hl, (allFast_iff_chain _).mp hf⟩

/-- C9 witness: three moves 1 s apart from a fresh detector raise the
flag with a full all-fast buffer, and the flag is sticky under a later
slow move. -/
theorem suspicious_detector_correct_witness :
    (((List.foldl recordMove initDetector [0, 1000]).isSuspicious =
          true ∨
        ((recordMove (List.foldl recordMove initDetector [0, 1000])
            2000).moveTimestamps.length = BURST_THRESHOLD ∧
          (recordMove (List.foldl recordMove initDetector [0, 1000])
              2000).moveTimestamps.Chain'
            (fun a b => b - a ≤ FAST_MOVE_INTERVAL_MS))) ∧
      (recordMove
          { moveTimestamps := [0, 1000, 2000], isSuspicious := true }
          999999).isSuspicious = true) :=
  ⟨suspicious_detector_correct.2.1 [0, 1000] 2000 (by decide),
   suspicious_detector_correct.2.2.1
      { moveTimestamps := [0, 1000, 2000], isSuspicious := true }
      999999 rfl⟩

/-! ## Frontend: live Arena Rating displays

The frontend recomputes each leaderboard entry's displayed Arena
Rating client-side, in two independent components with their own copies
of the computation: the full leaderboard table (`LeaderboardTable.tsx`)
and the mini leaderboard of the game screen (`GamePlayPage.tsx`).
Both define `TOTAL_CELLS_TO_PLACE = 46` and
`PROGRESS_BONUS_PER_CELL = 150`. JS numbers on the values involved are
modelled as `Int`; `Math.floor(x / 1_000_000)` is floor division
`Int.fdiv`. -/

/-- The fields of a leaderboard entry that the rating reads
(`entry.score` is the final on-chain score, parsed from its string
form). -/
structure LBEntry where
  score : Int
  penaltyCount : Int
  moveCount : Int
  completed : Bool

/-- Total cells a player must place (46 removed cells); both components
define this constant with this value. -/
def TOTAL_CELLS_TO_PLACE : Int := 46

/-- Progress bonus granted per correctly placed cell; both components
define this constant with this value. -/
def PROGRESS_BONUS_PER_CELL : Int := 150

namespace LeaderboardTable

/-- The table's `computeLiveBaseScore`: the final on-chain score for
completed entries; otherwise `max(0, 10000 - 2·elapsed -
100·penalties)` with the elapsed time capped at the tournament end
(`nowMicros` is `Date.now() * 1000`; `endMicros = none` is the
`Infinity` default of the optional prop). -/
def computeLiveBaseScore (entry : LBEntry)
    (startMicros nowMicros : Int) (endMicros : Option Int) : Int :=
  if entry.completed then entry.score
  else if startMicros = 0 then entry.score
  else
    let cappedNowMicros :=
      match endMicros with
      | some e => min nowMicros e
      | none => nowMicros
    let elapsedSecs := (cappedNowMicros - startMicros).fdiv 1000000
    max 0 (10000 - elapsedSecs * 2 - entry.penaltyCount * 100)

/-- The table's `computeArenaRating`: the displayed rating — completed
entries get the live base score (their final score) plus the full
46-cell progress bonus; in-progress entries get it plus 150 per correct
move. -/
def computeArenaRating (entry : LBEntry)
    (startMicros nowMicros : Int) (endMicros : Option Int) : Int :=
  let baseScore := computeLiveBaseScore entry startMicros nowMicros endMicros
  if entry.completed then
    baseScore + TOTAL_CELLS_TO_PLACE * PROGRESS_BONUS_PER_CELL
  else
    baseScore + max 0 (entry.moveCount - entry.penaltyCount) *
      PROGRESS_BONUS_PER_CELL

end LeaderboardTable

namespace GamePlayPage

/-- The game screen's `computeLiveBaseScore`: identical formula, but
the end time comes from the tournament record as a parsed number
(`endMicros`), used as a cap only when positive
(`endMicros > 0 ? Math.min(now, end) : now`). -/
def computeLiveBaseScore (entry : LBEntry)
    (startMicros nowMicros endMicros : Int) : Int :=
  if entry.completed then entry.score
  else if startMicros = 0 then entry.score
  else
    let cappedNowMicros :=
      if 0 < endMicros then min nowMicros endMicros else nowMicros
    let elapsedSecs := (cappedNowMicros - startMicros).fdiv 1000000
    max 0 (10000 - elapsedSecs * 2 - entry.penaltyCount * 100)

/-- The game screen's `computeArenaRating` (mini leaderboard): a
completed entry's displayed rating is the bare live base score — its
final on-chain score, with no progress bonus; in-progress entries get
150 per correct move on top. -/
def computeArenaRating (entry : LBEntry)
    (startMicros nowMicros endMicros : Int) : Int :=
  let baseScore := computeLiveBaseScore entry startMicros nowMicros endMicros
  if entry.completed then baseScore
  else
    baseScore + max 0 (entry.moveCount - entry.penaltyCount) *
      PROGRESS_BONUS_PER_CELL

end GamePlayPage

/-- A concrete completed leaderboard entry (final on-chain score 8360,
2 penalties, 46 moves). -/
def cexEntry : LBEntry :=
  { score := 8360, penaltyCount := 2, moveCount := 46, completed := true }

/-- C8 counterexample: in the leaderboard table component, the
completed entry `cexEntry` displays an Arena Rating of
`8360 + 46·150 = 15260`, not its bare final on-chain score `8360` — so
the claim that the frontend adds no progress bonus to completed
entries' displayed ratings is false on the code. -/
theorem arenaRating_completed_counterexample :
    cexEntry.completed = true ∧
      LeaderboardTable.computeArenaRating cexEntry 1000000 2000000 none =
        15260 ∧
      LeaderboardTable.computeArenaRating cexEntry 1000000 2000000 none ≠
        cexEntry.score := by
  refine ⟨rfl, by decide, by decide⟩

/-- C8 (amended): the frontend's Arena Rating display paths disagree on
completed entries. The game screen's mini leaderboard displays a
completed entry's rating as exactly its final on-chain score with no
progress bonus, while the leaderboard table component displays it as
the final on-chain score plus the full fixed progress bonus
`46 · 150 = 6900` (the same constant for every completed entry); in
both paths the per-correct-move progress bonus is applied only to
entries that are not yet completed. -/
theorem arenaRating_completed_amended :
    (∀ (entry : LBEntry) (startMicros nowMicros endMicros : Int),
        entry.completed = true →
        GamePlayPage.computeArenaRating entry startMicros nowMicros
            endMicros = entry.score) ∧
      (∀ (entry : LBEntry) (startMicros nowMicros : Int)
        (endMicros : Option Int), entry.completed = true →
        LeaderboardTable.computeArenaRating entry startMicros nowMicros
            endMicros = entry.score + 6900) := by
  constructor
  · intro entry s n e h
    simp [GamePlayPage.computeArenaRating, GamePlayPage.computeLiveBaseScore,
      h]
  · intro entry s n eo h
    simp [LeaderboardTable.computeArenaRating,
      LeaderboardTable.computeLiveBaseScore, h, TOTAL_CELLS_TO_PLACE,
      PROGRESS_BONUS_PER_CELL]

/-- C8 amended witness: the concrete completed entry displays its bare
final score on the game screen and its final score plus 6900 in the
leaderboard table. -/
theorem arenaRating_completed_amended_witness :
    GamePlayPage.computeArenaRating cexEntry 1000000 2000000 3000000 =
        cexEntry.score ∧
      LeaderboardTable.computeArenaRating cexEntry 1000000 2000000 none =
        cexEntry.score + 6900 :=
  ⟨arenaRating_completed_amended.1 cexEntry 1000000 2000000 3000000 rfl,
   arenaRating_completed_amended.2 cexEntry 1000000 2000000 none rfl⟩

/-- C5 witness: the determinism contract instantiated at seed 200. -/
theorem generate_deterministic_witness : generate 200 = generate 200 :=
  generate_deterministic 200 200 rfl
